import Mathlib

/-!
Verification of the Guarded Execution Policy Engine of `hybot`
(`src/hybot/tools/guarded_coding.py`): the danger-pattern catalog, the
risk classifier `_is_dangerous`, and the `GuardedCodingTools` wrapper
(`run_shell`, `write_file`, `edit_file`) around an underlying executor
and a confirmation prompt.

The Python module matches commands with `re.search` against a list of
compiled regular expressions.  We embed the fragment of Python regex
syntax those patterns use (literal characters, character classes, `.`,
alternation, `*`/`+` repetition and the `\b` word-boundary assertion) as
a small matcher over `List Char`, and translate each entry of
`DANGEROUS_PATTERNS` verbatim.
-/

namespace Hybot

/-- Python `\w` on the ASCII commands at hand: letters, digits, underscore. -/
def isWordChar (c : Char) : Bool :=
  c.isAlpha || c.isDigit || c == '_'

/-- Python `\s`: space, tab, newline, carriage return, vertical tab, form feed. -/
def isSpaceChar (c : Char) : Bool :=
  c == ' ' || c == '\t' || c == '\n' || c == '\r' || c == '\x0b' || c == '\x0c'

/-- The regex fragment used by `DANGEROUS_PATTERNS`. -/
inductive RE where
  | eps : RE
  | cls (p : Char → Bool) : RE
  | cat (a b : RE) : RE
  | alt (a b : RE) : RE
  | star (a : RE) : RE
  | wb : RE
deriving Inhabited

/-- Is the character at index `i` (if any) a word character? -/
def isWordAt (s : List Char) (i : Nat) : Bool :=
  match s.get? i with
  | some c => isWordChar c
  | none => false

/-- Is the character just before index `i` (if any) a word character? -/
def wordBefore (s : List Char) (i : Nat) : Bool :=
  match i with
  | 0 => false
  | j + 1 => isWordAt s j

/-- Python `\b` holds at `i` iff word-ness changes between `i - 1` and `i`. -/
def wbAt (s : List Char) (i : Nat) : Bool :=
  wordBefore s i != isWordAt s i

/-- Kleene iteration of a match-step `body`: all end positions of zero or
more `body`-steps from `i`, each step required to advance the position.
Requiring progress loses no end position (a non-advancing step leaves the
reachable set unchanged) and bounds the number of iterations by the string
length, so `fuel := s.length + 1` is always enough. -/
def reRunStar (body : List Char → Nat → List Nat) : Nat → List Char → Nat → List Nat
  | 0, _, i => [i]
  | f + 1, s, i =>
      i :: ((body s i).filter (fun j => i < j)).flatMap (fun j => reRunStar body f s j)

/-- All positions at which a match of `r` starting at `i` in `s` can end.
A nonempty result means `r` matches some stretch of `s` beginning at `i`. -/
def reRunF (fuel : Nat) : RE → List Char → Nat → List Nat
  | .eps, _, i => [i]
  | .cls p, s, i =>
      match s.get? i with
      | some c => if p c then [i + 1] else []
      | none => []
  | .wb, s, i => if wbAt s i then [i] else []
  | .cat a b, s, i => (reRunF fuel a s i).flatMap (fun j => reRunF fuel b s j)
  | .alt a b, s, i => reRunF fuel a s i ++ reRunF fuel b s i
  | .star a, s, i => reRunStar (reRunF fuel a) fuel s i

/-- Python `re.search`: does `r` match starting at any position of `s`? -/
def reSearch (r : RE) (s : String) : Bool :=
  let cs := s.data
  (List.range (cs.length + 1)).any (fun i => !(reRunF (cs.length + 1) r cs i).isEmpty)

/-- A literal character. -/
def chr (c : Char) : RE := .cls (fun d => d == c)

/-- A literal character sequence. -/
def strOf : List Char → RE
  | [] => .eps
  | c :: cs => .cat (chr c) (strOf cs)

/-- A literal string. -/
def lit (s : String) : RE := strOf s.data

/-- `r+` as `r r*`. -/
def plus (r : RE) : RE := .cat r (.star r)

/-- `\s` as a class. -/
def spc : RE := .cls isSpaceChar

/-- `.` — any character except newline (Python default, no DOTALL). -/
def dot : RE := .cls (fun c => c != '\n')

/-- `[a-zA-Z]`. -/
def alphaCls : RE := .cls (fun c => c.isAlpha)

/-- `\bw\b` — the word `w` with boundaries on both sides. -/
def word (w : String) : RE := .cat .wb (.cat (lit w) .wb)

/-- The catalog of dangerous shell-command shapes, translated entry by
entry from `DANGEROUS_PATTERNS` in `guarded_coding.py`. -/
def DANGEROUS_PATTERNS : List RE := [
  -- \brm\s+(-[a-zA-Z]*[rf]|--force|--recursive)\b
  .cat .wb (.cat (lit "rm") (.cat (plus spc) (.cat
    (.alt (.cat (chr '-') (.cat (.star alphaCls) (.cls (fun c => c == 'r' || c == 'f'))))
      (.alt (lit "--force") (lit "--recursive"))) .wb))),
  -- \brm\b.*\s+/
  .cat .wb (.cat (lit "rm") (.cat .wb (.cat (.star dot) (.cat (plus spc) (chr '/'))))),
  word "sudo",
  word "chmod",
  word "chown",
  word "dd",
  word "mkfs",
  word "fdisk",
  word "format",
  -- \b(shutdown|reboot|poweroff|halt)\b
  .cat .wb (.cat (.alt (lit "shutdown") (.alt (lit "reboot") (.alt (lit "poweroff") (lit "halt")))) .wb),
  -- \bgit\s+push\s+.*--force
  .cat .wb (.cat (lit "git") (.cat (plus spc) (.cat (lit "push") (.cat (plus spc)
    (.cat (.star dot) (lit "--force")))))),
  -- \bgit\s+reset\s+--hard
  .cat .wb (.cat (lit "git") (.cat (plus spc) (.cat (lit "reset") (.cat (plus spc) (lit "--hard"))))),
  -- \bgit\s+clean\s+-[a-zA-Z]*f
  .cat .wb (.cat (lit "git") (.cat (plus spc) (.cat (lit "clean") (.cat (plus spc)
    (.cat (chr '-') (.cat (.star alphaCls) (chr 'f'))))))),
  -- >\s*/dev/
  .cat (chr '>') (.cat (.star spc) (lit "/dev/")),
  -- \bkill\s+-9
  .cat .wb (.cat (lit "kill") (.cat (plus spc) (lit "-9"))),
  word "killall",
  word "pkill"
]

/-- `_is_dangerous`: does the command match any catalog pattern? -/
def is_dangerous (command : String) : Bool :=
  DANGEROUS_PATTERNS.any (fun p => reSearch p command)

/-! ### The guarded executor

`GuardedCodingTools` wraps the inherited `CodingTools` operations
(`super().run_shell` / `write_file` / `edit_file`, the underlying
executor) and a confirmation prompt (`_confirm_action`, which prints the
action description and detail and asks the operator, defaulting to No).

Side effects are made explicit: each method returns, besides its Python
return value, the list of external calls it performed, in order — the
confirmation prompts it showed and the underlying operations it invoked.
The prompt is an oracle that either answers a boolean or is interrupted
(`Confirm.ask` raising `KeyboardInterrupt`); the guard has no handler, so
an interruption propagates out of the method, modelled as `Except.error`. -/

/-- An observable external call made by a guarded method. -/
inductive Call where
  | confirmC (action_desc detail : String) : Call
  | shell (command : String) (timeout : Option Int) : Call
  | write (file_path contents : String) : Call
  | edit (file_path old_text new_text : String) : Call
deriving DecidableEq

/-- The underlying executor: the inherited `CodingTools` operations. -/
structure Underlying where
  run_shell : String → Option Int → String
  write_file : String → String → String
  edit_file : String → String → String → String

/-- `GuardedCodingTools`: approval mode, inherited executor, and the
confirmation oracle (`_confirm_action`'s outcome for a given description
and detail: `.ok b` is the operator's answer, `.error ()` an interrupt). -/
structure GuardedCodingTools where
  approval_mode : String
  underlying : Underlying
  confirm : String → String → Except Unit Bool

/-- Result of a guarded method: the Python return value (or a propagated
interrupt) together with the external calls performed, in order. -/
abbrev GuardResult := Except Unit String × List Call

/-- `GuardedCodingTools.run_shell`. -/
def GuardedCodingTools.run_shell (t : GuardedCodingTools) (command : String)
    (timeout : Option Int) : GuardResult :=
  if t.approval_mode == "always" then
    match t.confirm "执行 Shell 命令" command with
    | .error e => (.error e, [.confirmC "执行 Shell 命令" command])
    | .ok false => (.ok "Error: Operation rejected by user.",
        [.confirmC "执行 Shell 命令" command])
    | .ok true => (.ok (t.underlying.run_shell command timeout),
        [.confirmC "执行 Shell 命令" command, .shell command timeout])
  else if t.approval_mode == "dangerous" && is_dangerous command then
    match t.confirm "执行危险 Shell 命令" command with
    | .error e => (.error e, [.confirmC "执行危险 Shell 命令" command])
    | .ok false => (.ok "Error: Operation rejected by user.",
        [.confirmC "执行危险 Shell 命令" command])
    | .ok true => (.ok (t.underlying.run_shell command timeout),
        [.confirmC "执行危险 Shell 命令" command, .shell command timeout])
  else
    (.ok (t.underlying.run_shell command timeout), [.shell command timeout])

/-- `GuardedCodingTools.write_file`. -/
def GuardedCodingTools.write_file (t : GuardedCodingTools) (file_path contents : String) :
    GuardResult :=
  if t.approval_mode == "always" then
    match t.confirm "写入文件" file_path with
    | .error e => (.error e, [.confirmC "写入文件" file_path])
    | .ok false => (.ok "Error: Operation rejected by user.",
        [.confirmC "写入文件" file_path])
    | .ok true => (.ok (t.underlying.write_file file_path contents),
        [.confirmC "写入文件" file_path, .write file_path contents])
  else
    (.ok (t.underlying.write_file file_path contents), [.write file_path contents])

/-- `GuardedCodingTools.edit_file`. -/
def GuardedCodingTools.edit_file (t : GuardedCodingTools)
    (file_path old_text new_text : String) : GuardResult :=
  if t.approval_mode == "always" then
    match t.confirm "编辑文件" file_path with
    | .error e => (.error e, [.confirmC "编辑文件" file_path])
    | .ok false => (.ok "Error: Operation rejected by user.",
        [.confirmC "编辑文件" file_path])
    | .ok true => (.ok (t.underlying.edit_file file_path old_text new_text),
        [.confirmC "编辑文件" file_path, .edit file_path old_text new_text])
  else
    (.ok (t.underlying.edit_file file_path old_text new_text),
      [.edit file_path old_text new_text])

/-- Did the guarded method show any confirmation prompt? -/
def promptsConfirmation (calls : List Call) : Bool :=
  calls.any fun c =>
    match c with
    | .confirmC _ _ => true
    | _ => false

/-- Did the guarded method invoke any underlying operation? -/
def delegated (calls : List Call) : Bool :=
  calls.any fun c =>
    match c with
    | .confirmC _ _ => false
    | _ => true

/-! ### Spec-side Approval Policy (for refinement claims)

The spec describes the decision as a pure function
`decide(mode, kind, risk)`; the code spreads the same conditions over the
three methods.  These definitions follow the spec's words, to be compared
with the code-derived methods above. -/

/-- Spec `ActionRequest.kind`. -/
inductive ActionKind where
  | ShellExec | FileWrite | FileEdit
deriving DecidableEq

/-- Spec risk classification. -/
inductive Risk where
  | Benign | Dangerous
deriving DecidableEq

/-- Spec `ApprovalDecision`. -/
inductive ApprovalDecision where
  | RequireConfirmation | ProceedDirectly
deriving DecidableEq, BEq

/-- Spec Risk Classifier: `Dangerous` iff the catalog matches; only
`ShellExec` payloads are classified. -/
def classify (command : String) : Risk :=
  if is_dangerous command then .Dangerous else .Benign

/-- Spec Approval Policy truth table (section 4.3 of the spec). -/
def decide (mode : String) (kind : ActionKind) (risk : Risk) : ApprovalDecision :=
  if mode == "always" then .RequireConfirmation
  else if mode == "dangerous" then
    match kind, risk with
    | .ShellExec, .Dangerous => .RequireConfirmation
    | _, _ => .ProceedDirectly
  else .ProceedDirectly

/-- A concrete underlying executor used to instantiate general theorems. -/
def sampleUnderlying : Underlying where
  run_shell := fun c _ => "ran: " ++ c
  write_file := fun p _ => "wrote: " ++ p
  edit_file := fun p _ _ => "edited: " ++ p

/-- `w` occurs in `s` as a standalone word: the characters of `w` appear
contiguously at some index with no word character directly before or
after the occurrence (ASCII word characters, per `isWordChar`). -/
def hasStandaloneWord (w s : String) : Bool :=
  (List.range (s.data.length + 1)).any fun i =>
    ((s.data.drop i).take w.data.length == w.data)
      && !(wordBefore s.data i) && !(isWordAt s.data (i + w.data.length))

end Hybot

namespace Hybot

/-! ### Helper lemmas -/

/-- `List.any` is invariant under permutation of the list. -/
theorem perm_any {α : Type} {l l' : List α} (h : l.Perm l') (f : α → Bool) :
    l.any f = l'.any f := by
  induction h with
  | nil => rfl
  | cons x h ih => simp only [List.any_cons, ih]
  | swap x y l =>
      simp only [List.any_cons]
      rw [← Bool.or_assoc, Bool.or_comm (f y) (f x), Bool.or_assoc]
  | trans h1 h2 ih1 ih2 => rw [ih1, ih2]

/-- A window equality bounds the string length. -/
theorem window_le_length {s w : List Char} {i : Nat} (hw : 0 < w.length)
    (h : (s.drop i).take w.length = w) : i + w.length ≤ s.length := by
  have h1 : ((s.drop i).take w.length).length = w.length := by rw [h]
  rw [List.length_take, List.length_drop] at h1
  omega

/-- Reading characters through a `take`/`drop` window equality. -/
theorem getElem?_of_window {s w : List Char} {i : Nat}
    (h : (s.drop i).take w.length = w) : ∀ k, k < w.length → s[i + k]? = w[k]? := by
  intro k hk
  rw [← List.getElem?_drop, ← List.getElem?_take_of_lt hk, h]

/-- A literal sequence matches wherever the window holds. -/
theorem strOf_mem_reRunF (fuel : Nat) (w s : List Char) :
    ∀ i, (s.drop i).take w.length = w → (i + w.length) ∈ reRunF fuel (strOf w) s i := by
  induction w with
  | nil => intro i _; simp [strOf, reRunF]
  | cons c cs ih =>
      intro i h
      have hi : i < s.length := by
        have := window_le_length (by simp) h
        simp only [List.length_cons] at this
        omega
      have hdrop : s.drop i = s[i] :: s.drop (i + 1) := List.drop_eq_getElem_cons hi
      rw [hdrop, List.length_cons, List.take_succ_cons, List.cons.injEq] at h
      obtain ⟨hc, hwin⟩ := h
      have hget : s[i]? = some c := by
        rw [List.getElem?_eq_getElem hi, hc]
      simp only [strOf, reRunF]
      refine List.mem_flatMap.mpr ⟨i + 1, ?_, ?_⟩
      · simp [reRunF, chr, hget]
      · have harith : i + (c :: cs).length = i + 1 + cs.length := by
          simp only [List.length_cons]
          omega
        rw [harith]
        exact ih (i + 1) hwin

/-- A standalone occurrence of a word made of word characters is found by
the search for its `\bw\b` pattern. -/
theorem search_word_of_standalone (w s : String)
    (hne : 0 < w.data.length)
    (hall : ∀ c ∈ w.data, isWordChar c = true)
    (h : hasStandaloneWord w s = true) : reSearch (word w) s = true := by
  rw [hasStandaloneWord, List.any_eq_true] at h
  obtain ⟨i, hmem, hp⟩ := h
  rw [Bool.and_eq_true, Bool.and_eq_true] at hp
  obtain ⟨⟨hwinb, hbefore⟩, hafter⟩ := hp
  have hwin : (s.data.drop i).take w.data.length = w.data := by
    exact beq_iff_eq.mp hwinb
  rw [Bool.not_eq_true'] at hbefore hafter
  have hbound := window_le_length hne hwin
  -- the first and last characters of the occurrence are word characters
  have hfirst : isWordAt s.data i = true := by
    have h0 := getElem?_of_window hwin 0 hne
    rw [Nat.add_zero] at h0
    obtain ⟨c0, hc0⟩ : ∃ c0, w.data[0]? = some c0 := by
      cases hx : w.data[0]? with
      | none => rw [List.getElem?_eq_none_iff] at hx; omega
      | some c0 => exact ⟨c0, rfl⟩
    rw [isWordAt, List.get?_eq_getElem?, h0, hc0]
    exact hall c0 (List.getElem?_mem hc0)
  have hlast : isWordAt s.data (i + (w.data.length - 1)) = true := by
    have hk := getElem?_of_window hwin (w.data.length - 1) (by omega)
    obtain ⟨cl, hcl⟩ : ∃ cl, w.data[w.data.length - 1]? = some cl := by
      cases hx : w.data[w.data.length - 1]? with
      | none => rw [List.getElem?_eq_none_iff] at hx; omega
      | some cl => exact ⟨cl, rfl⟩
    rw [isWordAt, List.get?_eq_getElem?, hk, hcl]
    exact hall cl (List.getElem?_mem hcl)
  -- the boundaries of the pattern hold at both ends
  have hwb1 : wbAt s.data i = true := by
    unfold wbAt
    rw [hfirst]
    cases i with
    | zero => rfl
    | succ j => simp only [wordBefore] at hbefore ⊢; rw [hbefore]; rfl
  have hwb2 : wbAt s.data (i + w.data.length) = true := by
    have harith : i + w.data.length = (i + (w.data.length - 1)) + 1 := by omega
    unfold wbAt
    rw [harith] at hafter ⊢
    simp only [wordBefore]
    rw [hlast, hafter]
    rfl
  -- assemble the match: \b, the literal, \b
  rw [reSearch, List.any_eq_true]
  refine ⟨i, List.mem_range.mpr (by omega), ?_⟩
  rw [Bool.not_eq_true', Bool.eq_false_iff]
  intro hempty
  have hmm : (i + w.data.length) ∈
      reRunF (s.data.length + 1) (word w) s.data i := by
    rw [word, lit, reRunF]
    refine List.mem_flatMap.mpr ⟨i, ?_, ?_⟩
    · rw [reRunF, hwb1]; exact List.mem_singleton.mpr rfl
    · rw [reRunF]
      refine List.mem_flatMap.mpr ⟨i + w.data.length, ?_, ?_⟩
      · exact strOf_mem_reRunF _ w.data s.data i hwin
      · rw [reRunF, hwb2]; exact List.mem_singleton.mpr rfl
  rw [List.isEmpty_iff] at hempty
  rw [hempty] at hmm
  exact List.not_mem_nil _ hmm

end Hybot

namespace Hybot

/-! ### Claim theorems -/

/-- C4: the risk classifier returns Dangerous for a command string if and
only if at least one catalog signature matches it; "rm -rf /tmp/build",
"git push origin main --force" and "sudo shutdown now" are each classified
Dangerous, while "ls -la" is classified Benign. -/
theorem C4_classifier_matches_catalog :
    (∀ c : String, is_dangerous c = true ↔ ∃ p ∈ DANGEROUS_PATTERNS, reSearch p c = true) ∧
    is_dangerous "rm -rf /tmp/build" = true ∧
    is_dangerous "git push origin main --force" = true ∧
    is_dangerous "sudo shutdown now" = true ∧
    is_dangerous "ls -la" = false := by
  refine ⟨fun c => ?_, by decide, by decide, by decide, by decide⟩
  rw [is_dangerous, List.any_eq_true]

/-- C2: the approval decision is exactly the spec's truth table for every
(mode, kind, risk) triple, and the three guarded methods prompt for
confirmation exactly when the table says `RequireConfirmation` for their
action kind and the classified risk. -/
theorem C2_policy_truth_table :
    (∀ k r, decide "never" k r = ApprovalDecision.ProceedDirectly) ∧
    (∀ k r, decide "always" k r = ApprovalDecision.RequireConfirmation) ∧
    decide "dangerous" .ShellExec .Dangerous = ApprovalDecision.RequireConfirmation ∧
    decide "dangerous" .ShellExec .Benign = ApprovalDecision.ProceedDirectly ∧
    (∀ r, decide "dangerous" .FileWrite r = ApprovalDecision.ProceedDirectly ∧
          decide "dangerous" .FileEdit r = ApprovalDecision.ProceedDirectly) ∧
    (∀ (t : GuardedCodingTools) (c : String) (tmo : Option Int), promptsConfirmation (t.run_shell c tmo).snd = true ↔
        decide t.approval_mode .ShellExec (classify c) = .RequireConfirmation) ∧
    (∀ (t : GuardedCodingTools) (p cont : String) (r : Risk), promptsConfirmation (t.write_file p cont).snd = true ↔
        decide t.approval_mode .FileWrite r = .RequireConfirmation) ∧
    (∀ (t : GuardedCodingTools) (p o n : String) (r : Risk), promptsConfirmation (t.edit_file p o n).snd = true ↔
        decide t.approval_mode .FileEdit r = .RequireConfirmation) := by
  refine ⟨fun k r => by cases k <;> cases r <;> rfl,
          fun k r => by cases k <;> cases r <;> rfl, rfl, rfl,
          fun r => by cases r <;> exact ⟨rfl, rfl⟩, ?_, ?_, ?_⟩
  · intro t c tmo
    by_cases h1 : t.approval_mode = "always"
    · rcases hc : t.confirm "执行 Shell 命令" c with e | b
      · simp [GuardedCodingTools.run_shell, promptsConfirmation, decide, h1, hc]
      · cases b <;>
          simp [GuardedCodingTools.run_shell, promptsConfirmation, decide, h1, hc]
    · by_cases h2 : t.approval_mode = "dangerous"
      · by_cases h3 : is_dangerous c = true
        · rcases hc : t.confirm "执行危险 Shell 命令" c with e | b
          · simp [GuardedCodingTools.run_shell, promptsConfirmation, decide, classify,
              h1, h2, h3, hc]
          · cases b <;>
              simp [GuardedCodingTools.run_shell, promptsConfirmation, decide, classify,
                h1, h2, h3, hc]
        · simp [GuardedCodingTools.run_shell, promptsConfirmation, decide, classify,
            h1, h2, h3]
      · simp [GuardedCodingTools.run_shell, promptsConfirmation, decide, h1, h2]
  · intro t p cont r
    by_cases h1 : t.approval_mode = "always"
    · rcases hc : t.confirm "写入文件" p with e | b
      · simp [GuardedCodingTools.write_file, promptsConfirmation, decide, h1, hc]
      · cases b <;>
          simp [GuardedCodingTools.write_file, promptsConfirmation, decide, h1, hc]
    · by_cases h2 : t.approval_mode = "dangerous" <;>
        cases r <;>
          simp [GuardedCodingTools.write_file, promptsConfirmation, decide, h1, h2]
  · intro t p o n r
    by_cases h1 : t.approval_mode = "always"
    · rcases hc : t.confirm "编辑文件" p with e | b
      · simp [GuardedCodingTools.edit_file, promptsConfirmation, decide, h1, hc]
      · cases b <;>
          simp [GuardedCodingTools.edit_file, promptsConfirmation, decide, h1, hc]
    · by_cases h2 : t.approval_mode = "dangerous" <;>
        cases r <;>
          simp [GuardedCodingTools.edit_file, promptsConfirmation, decide, h1, h2]

/-- C8: classification is a pure function of the command string —
classifying the same command twice yields the same result — and for every
permutation of the pattern list, any-match classification gives the same
boolean for every command. -/
theorem C8_classification_pure_and_order_independent
    (ps : List RE) (h : ps.Perm DANGEROUS_PATTERNS) (c : String) :
    is_dangerous c = is_dangerous c ∧
    ps.any (fun p => reSearch p c) = is_dangerous c :=
  ⟨rfl, by rw [is_dangerous]; exact perm_any h _⟩

/-- Witness for C8 at the reversed catalog and a concrete command. -/
theorem C8_witness :
    DANGEROUS_PATTERNS.reverse.any (fun p => reSearch p "sudo make install")
      = is_dangerous "sudo make install" :=
  (C8_classification_pure_and_order_independent DANGEROUS_PATTERNS.reverse
    (List.reverse_perm DANGEROUS_PATTERNS) "sudo make install").2

end Hybot

namespace Hybot

/-- A catalog word pattern fires on any string containing the word
standalone, hence the classifier reports Dangerous there. -/
theorem standalone_dangerous (w s : String) (hmem : word w ∈ DANGEROUS_PATTERNS)
    (hne : 0 < w.data.length) (hall : ∀ ch ∈ w.data, isWordChar ch = true)
    (h : hasStandaloneWord w s = true) : is_dangerous s = true := by
  rw [is_dangerous, List.any_eq_true]
  exact ⟨word w, hmem, search_word_of_standalone w s hne hall h⟩

/-- C1: for every action for which the policy requires confirmation and
the confirmation gate returns false, the guarded method returns the
rejection outcome and the underlying executor is never invoked. -/
theorem C1_rejection_implies_no_delegation
    (t : GuardedCodingTools) (c p cont o n : String) (tmo : Option Int)
    (hg : ∀ d det, t.confirm d det = .ok false) :
    ((t.approval_mode = "always" ∨ (t.approval_mode = "dangerous" ∧ is_dangerous c = true)) →
      (t.run_shell c tmo).fst = .ok "Error: Operation rejected by user." ∧
      delegated (t.run_shell c tmo).snd = false) ∧
    (t.approval_mode = "always" →
      (t.write_file p cont).fst = .ok "Error: Operation rejected by user." ∧
      delegated (t.write_file p cont).snd = false ∧
      (t.edit_file p o n).fst = .ok "Error: Operation rejected by user." ∧
      delegated (t.edit_file p o n).snd = false) := by
  constructor
  · rintro (h1 | ⟨h2, h3⟩)
    · simp [GuardedCodingTools.run_shell, h1, hg, delegated]
    · simp [GuardedCodingTools.run_shell, h2, h3, hg, delegated]
  · intro h1
    simp [GuardedCodingTools.write_file, GuardedCodingTools.edit_file, h1, hg, delegated]

/-- Witness for C1: an always-declining gate in `always` mode rejects a
shell command without reaching the underlying executor. -/
theorem C1_witness :
    (GuardedCodingTools.run_shell
        ⟨"always", sampleUnderlying, fun _ _ => .ok false⟩ "rm -rf /" none).fst
      = .ok "Error: Operation rejected by user." ∧
    delegated (GuardedCodingTools.run_shell
        ⟨"always", sampleUnderlying, fun _ _ => .ok false⟩ "rm -rf /" none).snd = false :=
  (C1_rejection_implies_no_delegation
    ⟨"always", sampleUnderlying, fun _ _ => .ok false⟩ "rm -rf /" "a.txt" "x" "o" "n" none
    (fun _ _ => rfl)).1 (Or.inl rfl)

/-- C3: a declined confirmation makes each of the three guarded methods
return exactly `"Error: Operation rejected by user."` as an ordinary
value (`Except.ok`), never an exception. -/
theorem C3_exact_rejection_literal
    (t : GuardedCodingTools) (c p cont o n : String) (tmo : Option Int) :
    (t.approval_mode = "always" → t.confirm "执行 Shell 命令" c = .ok false →
      t.run_shell c tmo = (.ok "Error: Operation rejected by user.",
        [.confirmC "执行 Shell 命令" c])) ∧
    (t.approval_mode = "dangerous" → is_dangerous c = true →
      t.confirm "执行危险 Shell 命令" c = .ok false →
      t.run_shell c tmo = (.ok "Error: Operation rejected by user.",
        [.confirmC "执行危险 Shell 命令" c])) ∧
    (t.approval_mode = "always" → t.confirm "写入文件" p = .ok false →
      t.write_file p cont = (.ok "Error: Operation rejected by user.",
        [.confirmC "写入文件" p])) ∧
    (t.approval_mode = "always" → t.confirm "编辑文件" p = .ok false →
      t.edit_file p o n = (.ok "Error: Operation rejected by user.",
        [.confirmC "编辑文件" p])) := by
  refine ⟨fun h1 hc => ?_, fun h2 h3 hc => ?_, fun h1 hc => ?_, fun h1 hc => ?_⟩
  · simp [GuardedCodingTools.run_shell, h1, hc]
  · simp [GuardedCodingTools.run_shell, h2, h3, hc]
  · simp [GuardedCodingTools.write_file, h1, hc]
  · simp [GuardedCodingTools.edit_file, h1, hc]

/-- Witness for C3: a declined dangerous shell command in `dangerous`
mode yields the exact rejection literal. -/
theorem C3_witness :
    GuardedCodingTools.run_shell
        ⟨"dangerous", sampleUnderlying, fun _ _ => .ok false⟩ "sudo shutdown now" none
      = (.ok "Error: Operation rejected by user.",
         [.confirmC "执行危险 Shell 命令" "sudo shutdown now"]) :=
  (C3_exact_rejection_literal
    ⟨"dangerous", sampleUnderlying, fun _ _ => .ok false⟩ "sudo shutdown now"
    "a.txt" "x" "o" "n" none).2.1 rfl (by decide) rfl

/-- C5: in `dangerous` mode, `write_file` and `edit_file` are never
pattern-matched: for any contents (or old/new pairs) at the same path the
approval decision is the same — both proceed directly with no prompt. -/
theorem C5_file_ops_content_independent
    (t : GuardedCodingTools) (p c1 c2 o1 n1 o2 n2 : String)
    (h : t.approval_mode = "dangerous") :
    t.write_file p c1 = (.ok (t.underlying.write_file p c1), [.write p c1]) ∧
    t.write_file p c2 = (.ok (t.underlying.write_file p c2), [.write p c2]) ∧
    promptsConfirmation (t.write_file p c1).snd
      = promptsConfirmation (t.write_file p c2).snd ∧
    promptsConfirmation (t.write_file p c1).snd = false ∧
    t.edit_file p o1 n1 = (.ok (t.underlying.edit_file p o1 n1), [.edit p o1 n1]) ∧
    t.edit_file p o2 n2 = (.ok (t.underlying.edit_file p o2 n2), [.edit p o2 n2]) ∧
    promptsConfirmation (t.edit_file p o1 n1).snd
      = promptsConfirmation (t.edit_file p o2 n2).snd ∧
    promptsConfirmation (t.edit_file p o1 n1).snd = false := by
  refine ⟨?_, ?_, ?_, ?_, ?_, ?_, ?_, ?_⟩ <;>
    simp [GuardedCodingTools.write_file, GuardedCodingTools.edit_file,
      promptsConfirmation, h]

/-- Witness for C5 at two different contents in `dangerous` mode. -/
theorem C5_witness :
    GuardedCodingTools.write_file
        ⟨"dangerous", sampleUnderlying, fun _ _ => .ok false⟩ "f.txt" "rm -rf /"
      = (.ok (sampleUnderlying.write_file "f.txt" "rm -rf /"), [.write "f.txt" "rm -rf /"]) ∧
    promptsConfirmation (GuardedCodingTools.write_file
        ⟨"dangerous", sampleUnderlying, fun _ _ => .ok false⟩ "f.txt" "rm -rf /").snd = false :=
  ⟨(C5_file_ops_content_independent
      ⟨"dangerous", sampleUnderlying, fun _ _ => .ok false⟩ "f.txt" "rm -rf /" "hello"
      "o1" "n1" "o2" "n2" rfl).1,
   (C5_file_ops_content_independent
      ⟨"dangerous", sampleUnderlying, fun _ _ => .ok false⟩ "f.txt" "rm -rf /" "hello"
      "o1" "n1" "o2" "n2" rfl).2.2.2.1⟩

/-- C6: whenever the guard delegates (directly or after a granted
confirmation) it passes the full original payload unchanged to the
underlying executor and returns its result unchanged; with mode `never`
each guarded method is extensionally the underlying one. -/
theorem C6_delegation_unchanged
    (t : GuardedCodingTools) (c p cont o n : String) (tmo : Option Int) :
    (t.approval_mode ≠ "always" →
      ¬(t.approval_mode = "dangerous" ∧ is_dangerous c = true) →
      t.run_shell c tmo = (.ok (t.underlying.run_shell c tmo), [.shell c tmo])) ∧
    (t.approval_mode ≠ "always" →
      t.write_file p cont = (.ok (t.underlying.write_file p cont), [.write p cont]) ∧
      t.edit_file p o n = (.ok (t.underlying.edit_file p o n), [.edit p o n])) ∧
    (t.approval_mode = "always" → t.confirm "执行 Shell 命令" c = .ok true →
      t.run_shell c tmo = (.ok (t.underlying.run_shell c tmo),
        [.confirmC "执行 Shell 命令" c, .shell c tmo])) ∧
    (t.approval_mode = "dangerous" → is_dangerous c = true →
      t.confirm "执行危险 Shell 命令" c = .ok true →
      t.run_shell c tmo = (.ok (t.underlying.run_shell c tmo),
        [.confirmC "执行危险 Shell 命令" c, .shell c tmo])) ∧
    (t.approval_mode = "always" → t.confirm "写入文件" p = .ok true →
      t.write_file p cont = (.ok (t.underlying.write_file p cont),
        [.confirmC "写入文件" p, .write p cont])) ∧
    (t.approval_mode = "always" → t.confirm "编辑文件" p = .ok true →
      t.edit_file p o n = (.ok (t.underlying.edit_file p o n),
        [.confirmC "编辑文件" p, .edit p o n])) ∧
    (t.approval_mode = "never" →
      t.run_shell c tmo = (.ok (t.underlying.run_shell c tmo), [.shell c tmo]) ∧
      t.write_file p cont = (.ok (t.underlying.write_file p cont), [.write p cont]) ∧
      t.edit_file p o n = (.ok (t.underlying.edit_file p o n), [.edit p o n])) := by
  refine ⟨fun h1 h2 => ?_, fun h1 => ?_, fun h1 hc => ?_, fun h2 h3 hc => ?_,
    fun h1 hc => ?_, fun h1 hc => ?_, fun h1 => ?_⟩
  · by_cases hd : t.approval_mode = "dangerous"
    · have h3 : is_dangerous c = false := by
        rcases Bool.eq_false_or_eq_true (is_dangerous c) with h | h
        · exact absurd ⟨hd, h⟩ h2
        · exact h
      simp [GuardedCodingTools.run_shell, h1, hd, h3]
    · simp [GuardedCodingTools.run_shell, h1, hd]
  · exact ⟨by simp [GuardedCodingTools.write_file, h1],
      by simp [GuardedCodingTools.edit_file, h1]⟩
  · simp [GuardedCodingTools.run_shell, h1, hc]
  · simp [GuardedCodingTools.run_shell, h2, h3, hc]
  · simp [GuardedCodingTools.write_file, h1, hc]
  · simp [GuardedCodingTools.edit_file, h1, hc]
  · refine ⟨?_, ?_, ?_⟩ <;>
      simp [GuardedCodingTools.run_shell, GuardedCodingTools.write_file,
        GuardedCodingTools.edit_file, h1]

/-- Witness for C6: mode `never` runs a dangerous command directly with
the payload passed through unchanged. -/
theorem C6_witness :
    GuardedCodingTools.run_shell
        ⟨"never", sampleUnderlying, fun _ _ => .ok false⟩ "sudo shutdown now" (some 5)
      = (.ok (sampleUnderlying.run_shell "sudo shutdown now" (some 5)),
         [.shell "sudo shutdown now" (some 5)]) :=
  ((C6_delegation_unchanged
      ⟨"never", sampleUnderlying, fun _ _ => .ok false⟩ "sudo shutdown now"
      "a.txt" "x" "o" "n" (some 5)).2.2.2.2.2.2 rfl).1

/-- C9: any approval mode other than `always` and `dangerous` (not only
`never`) makes all three methods delegate directly with no prompt. -/
theorem C9_unknown_mode_fails_open
    (t : GuardedCodingTools) (c p cont o n : String) (tmo : Option Int)
    (h1 : t.approval_mode ≠ "always") (h2 : t.approval_mode ≠ "dangerous") :
    t.run_shell c tmo = (.ok (t.underlying.run_shell c tmo), [.shell c tmo]) ∧
    t.write_file p cont = (.ok (t.underlying.write_file p cont), [.write p cont]) ∧
    t.edit_file p o n = (.ok (t.underlying.edit_file p o n), [.edit p o n]) ∧
    promptsConfirmation (t.run_shell c tmo).snd = false ∧
    promptsConfirmation (t.write_file p cont).snd = false ∧
    promptsConfirmation (t.edit_file p o n).snd = false := by
  refine ⟨?_, ?_, ?_, ?_, ?_, ?_⟩ <;>
    simp [GuardedCodingTools.run_shell, GuardedCodingTools.write_file,
      GuardedCodingTools.edit_file, promptsConfirmation, h1, h2]

/-- Witness for C9 at the misspelled mode `"dangeros"`. -/
theorem C9_witness :
    GuardedCodingTools.run_shell
        ⟨"dangeros", sampleUnderlying, fun _ _ => .ok false⟩ "sudo shutdown now" none
      = (.ok (sampleUnderlying.run_shell "sudo shutdown now" none),
         [.shell "sudo shutdown now" none]) :=
  (C9_unknown_mode_fails_open
    ⟨"dangeros", sampleUnderlying, fun _ _ => .ok false⟩ "sudo shutdown now"
    "a.txt" "x" "o" "n" none (by decide) (by decide)).1

/-- C7 counterexample: with an interrupted confirmation wait the guard
does not return the rejection value — the interrupt propagates out of the
method as a fault, contradicting the claim's "no fault is raised". -/
theorem C7_counterexample :
    (GuardedCodingTools.run_shell
        ⟨"always", sampleUnderlying, fun _ _ => .error ()⟩ "ls -la" none).fst
      = .error () ∧
    (GuardedCodingTools.run_shell
        ⟨"always", sampleUnderlying, fun _ _ => .error ()⟩ "ls -la" none).fst
      ≠ .ok "Error: Operation rejected by user." :=
  ⟨rfl, by simp [GuardedCodingTools.run_shell]⟩

/-- C7 (amended): cancellation during the confirmation wait never
resolves to approval and the underlying executor is never invoked, but
the interrupt propagates out of the guard as a fault instead of being
mapped to the rejection outcome. -/
theorem C7_interrupt_propagates_without_delegation
    (t : GuardedCodingTools) (c p cont o n : String) (tmo : Option Int)
    (hg : ∀ d det, t.confirm d det = .error ()) :
    ((t.approval_mode = "always" ∨ (t.approval_mode = "dangerous" ∧ is_dangerous c = true)) →
      (t.run_shell c tmo).fst = .error () ∧ delegated (t.run_shell c tmo).snd = false) ∧
    (t.approval_mode = "always" →
      (t.write_file p cont).fst = .error () ∧
      delegated (t.write_file p cont).snd = false ∧
      (t.edit_file p o n).fst = .error () ∧
      delegated (t.edit_file p o n).snd = false) := by
  constructor
  · rintro (h1 | ⟨h2, h3⟩)
    · simp [GuardedCodingTools.run_shell, h1, hg, delegated]
    · simp [GuardedCodingTools.run_shell, h2, h3, hg, delegated]
  · intro h1
    simp [GuardedCodingTools.write_file, GuardedCodingTools.edit_file, h1, hg, delegated]

/-- Witness for the amended C7: an interrupt during a dangerous command's
confirmation propagates and nothing is executed. -/
theorem C7_witness :
    (GuardedCodingTools.run_shell
        ⟨"dangerous", sampleUnderlying, fun _ _ => .error ()⟩ "rm -rf /tmp/build" none).fst
      = .error () ∧
    delegated (GuardedCodingTools.run_shell
        ⟨"dangerous", sampleUnderlying, fun _ _ => .error ()⟩ "rm -rf /tmp/build" none).snd
      = false :=
  (C7_interrupt_propagates_without_delegation
    ⟨"dangerous", sampleUnderlying, fun _ _ => .error ()⟩ "rm -rf /tmp/build"
    "a.txt" "x" "o" "n" none (fun _ _ => rfl)).1
    (Or.inr ⟨rfl, by decide⟩)

/-- C10: `"sudo " ++ c` is Dangerous for every `c`; more generally any
command containing `sudo`, `chmod`, `chown`, `dd` or `format` as a
standalone word is Dangerous — even in the harmless `"echo sudo"`. -/
theorem C10_standalone_words_dangerous :
    (∀ c : String, is_dangerous ("sudo " ++ c) = true) ∧
    (∀ w s : String, w ∈ (["sudo", "chmod", "chown", "dd", "format"] : List String) →
      hasStandaloneWord w s = true → is_dangerous s = true) ∧
    is_dangerous "echo sudo" = true := by
  have hgen : ∀ w s : String,
      w ∈ (["sudo", "chmod", "chown", "dd", "format"] : List String) →
      hasStandaloneWord w s = true → is_dangerous s = true := by
    intro w s hw hstand
    refine standalone_dangerous w s ?_ ?_ ?_ hstand
    · fin_cases hw <;> simp [DANGEROUS_PATTERNS]
    · fin_cases hw <;> decide
    · fin_cases hw <;> decide
  refine ⟨?_, hgen, by decide⟩
  intro c
  refine hgen "sudo" ("sudo " ++ c) (by simp) ?_
  rw [hasStandaloneWord, List.any_eq_true]
  have hdata : ("sudo " ++ c).data = 's' :: 'u' :: 'd' :: 'o' :: ' ' :: c.data := by
    rw [String.data_append]
    rfl
  refine ⟨0, List.mem_range.mpr (Nat.succ_pos _), ?_⟩
  rw [hdata]
  rfl

end Hybot

namespace Hybot

/-- Witness for C2: the bridge evaluated on a concrete dangerous command. -/
theorem C2_witness :
    promptsConfirmation ((GuardedCodingTools.run_shell
        ⟨"dangerous", sampleUnderlying, fun _ _ => .ok false⟩ "rm -rf /" none).snd) = true ↔
      decide "dangerous" .ShellExec (classify "rm -rf /") = .RequireConfirmation :=
  C2_policy_truth_table.2.2.2.2.2.1
    ⟨"dangerous", sampleUnderlying, fun _ _ => .ok false⟩ "rm -rf /" none

/-- Witness for C4 at a concrete dangerous command. -/
theorem C4_witness : is_dangerous "rm -rf /tmp/build" = true :=
  C4_classifier_matches_catalog.2.1

/-- Witness for C10: a standalone `chmod` occurrence is Dangerous. -/
theorem C10_witness : is_dangerous "chmod 777 /etc/passwd" = true :=
  C10_standalone_words_dangerous.2.1 "chmod" "chmod 777 /etc/passwd"
    (by decide) (by decide)

end Hybot
